import Mathlib

/-!
Verification of the src2md container format against its Rust sources.

The development shallowly embeds the pure content of the repository:

* `calculate_fence` (src/mdbook.rs) — fence sizing over a text payload;
* `get_language_tag` (src/utils.rs) — dialect tag from a path;
* `inspectIsBinary` — the BINARY verdict of the external crate
  content_inspector, as consumed by the writer;
* `validUtf8` — UTF-8 validity as used via str::from_utf8;
* `write_entry` (src/writer.rs) — one section of the output document;
* `run_src2md` (src/lib.rs) — the per-entry encode loop with the
  fail-fast policy;
* `is_src2md_output` (src/filewalker.rs) — self-recognition by magic header;
* `decodeDoc` — the decoder, modelled from the specification because the
  extractor module is declared in lib.rs but absent from the sources.

Files are byte lists (`List Nat`, each below 256); documents are the byte
lists the writer emits.  Paths are component lists, mirroring Rust `Path`
components.
-/

namespace Src2md

/-- ASCII/UTF-32 view of a Lean string as a byte list: every string this
development feeds to it is ASCII, where codepoints and bytes coincide. -/
def asciiOf (s : String) : List Nat := s.data.map Char.toNat

/-- The backtick character, written via its code point. -/
def backtick : Char := Char.ofNat 96

/-- Split a character list at every newline; the result is never empty and
keeps empty segments, like Rust `str::split('\n')`. -/
def splitNl : List Char → List (List Char)
  | [] => [[]]
  | c :: rest =>
    if c = '\n' then [] :: splitNl rest
    else
      match splitNl rest with
      | [] => [[c]]
      | l :: ls => (c :: l) :: ls

/-- Drop one trailing carriage return, as Rust `str::lines` does for the
lines it yields before a newline. -/
def stripCr (l : List Char) : List Char :=
  if l.getLast? = some '\r' then l.dropLast else l

/-- Rust `str::lines`: split at newlines, drop a final empty segment
produced by a trailing newline, and strip a carriage return from every
line that was terminated by a newline. -/
def rustLines (s : List Char) : List (List Char) :=
  let parts := splitNl s
  if parts.getLast? = some [] then parts.dropLast.map stripCr
  else parts.dropLast.map stripCr ++ parts.getLast?.toList

/-- Rust `char::is_whitespace`: the Unicode White_Space property. -/
def rustIsWhitespace (c : Char) : Bool :=
  [0x09, 0x0A, 0x0B, 0x0C, 0x0D, 0x20, 0x85, 0xA0, 0x1680,
   0x2028, 0x2029, 0x202F, 0x205F, 0x3000].contains c.toNat
  || (decide (0x2000 ≤ c.toNat) && decide (c.toNat ≤ 0x200A))

/-- Rust `str::trim_start`. -/
def trimStart (l : List Char) : List Char := l.dropWhile rustIsWhitespace

/-- Length of the leading backtick run, mirroring
`chars().take_while(c == backtick).count()` in calculate_fence. -/
def leadTicks (l : List Char) : Nat :=
  (l.takeWhile (fun c => c = backtick)).length

/-- The per-line closure inside src/mdbook.rs `calculate_fence`: trims the
line start and, when the trimmed line starts with a backtick, yields the
length of its leading backtick run. -/
def fenceLineRun (line : List Char) : Option Nat :=
  if (trimStart line).head? = some backtick then some (leadTicks (trimStart line))
  else none

/-- src/mdbook.rs `calculate_fence`: the longest line-leading backtick run
(after `trim_start`) over all lines, then a fence of
`max_backtick_run.max(2) + 1` backticks. -/
def calculate_fence (content : List Char) : List Char :=
  let max_backtick_run :=
    ((rustLines content).filterMap fenceLineRun).foldr Nat.max 0
  List.replicate (Nat.max max_backtick_run 2 + 1) backtick

/-- Spec 4.3 wording: the backtick run at the start of a line's
left-trimmed content (0 when the trimmed line does not start with one). -/
def specLineRun (line : List Char) : Nat := leadTicks (trimStart line)

/-- Spec 4.3 wording: the longest observed line-leading run over all lines. -/
def specLongestRun (s : List Char) : Nat :=
  ((rustLines s).map specLineRun).foldr Nat.max 0

theorem leadTicks_eq_zero_of_head_ne {l : List Char}
    (h : l.head? ≠ some backtick) : leadTicks l = 0 := by
  cases l with
  | nil => rfl
  | cons c cs =>
    simp only [List.head?] at h
    have hc : c ≠ backtick := fun he => h (by simp [he])
    simp [leadTicks, List.takeWhile, hc]

theorem max_two_add_one (a : Nat) : Nat.max a 2 + 1 = Nat.max 3 (a + 1) := by
  simp only [Nat.max_def]
  split <;> split <;> omega

theorem fenceLineRun_none {l : List Char} (h : fenceLineRun l = none) :
    specLineRun l = 0 := by
  unfold fenceLineRun at h
  split at h
  · simp at h
  · exact leadTicks_eq_zero_of_head_ne (by assumption)

theorem fenceLineRun_some {l : List Char} {b : Nat}
    (h : fenceLineRun l = some b) : b = specLineRun l := by
  unfold fenceLineRun at h
  split at h
  · exact (Option.some_inj.mp h).symm
  · simp at h

theorem calc_fence_max_eq (lines : List (List Char)) :
    (lines.filterMap fenceLineRun).foldr Nat.max 0
    = (lines.map specLineRun).foldr Nat.max 0 := by
  induction lines with
  | nil => rfl
  | cons l ls ih =>
    rw [List.map_cons, List.foldr_cons]
    cases hfl : fenceLineRun l with
    | none =>
      rw [List.filterMap_cons_none hfl, ih, fenceLineRun_none hfl]
      simp [Nat.max_def]
    | some b =>
      rw [List.filterMap_cons_some hfl, List.foldr_cons, ih,
        fenceLineRun_some hfl]

/-- The fence length is exactly `max 3 (longest line-leading run + 1)`. -/
theorem calculate_fence_length (s : List Char) :
    (calculate_fence s).length = Nat.max 3 (specLongestRun s + 1) := by
  simp only [calculate_fence, specLongestRun]
  rw [calc_fence_max_eq, List.length_replicate]
  exact max_two_add_one _

theorem splitNl_of_no_newline {s : List Char} (h : '\n' ∉ s) :
    splitNl s = [s] := by
  induction s with
  | nil => rfl
  | cons c cs ih =>
    have hc : c ≠ '\n' := fun he => h (by simp [he])
    have hcs : '\n' ∉ cs := fun hm => h (List.mem_cons_of_mem _ hm)
    rw [splitNl, if_neg hc, ih hcs]

theorem rustLines_of_no_newline {s : List Char} (hne : s ≠ [])
    (h : '\n' ∉ s) : rustLines s = [s] := by
  unfold rustLines
  rw [splitNl_of_no_newline h]
  simp [hne]

theorem takeWhile_all {p : Char → Bool} {l : List Char}
    (h : ∀ c ∈ l, p c = true) : l.takeWhile p = l := by
  induction l with
  | nil => rfl
  | cons c cs ih =>
    rw [List.takeWhile_cons, if_pos (h c (List.mem_cons_self c cs))]
    rw [ih fun x hx => h x (List.mem_cons_of_mem _ hx)]

theorem dropWhile_head_false {p : Char → Bool} {l : List Char}
    (h : ∀ c, l.head? = some c → p c = false) : l.dropWhile p = l := by
  cases l with
  | nil => rfl
  | cons c cs =>
    rw [List.dropWhile_cons, if_neg]
    simp [h c rfl]

/-- Paths are component lists, mirroring Rust `Path` components; no
component contains a separator. -/
def PathC : Type := List String

/-- Rust `Path::display` on a Unix host: components joined by slashes. -/
def pathDisplay (p : List String) : String := String.intercalate "/" p

/-- `path.strip_prefix(project_root).unwrap_or(path)` from write_entry:
component-wise prefix removal, keeping the original path on failure. -/
def stripPre (root p : List String) : List String :=
  if root.isPrefixOf p then p.drop root.length else p

/-- ASCII lowercasing of one character; models Rust `str::to_lowercase`
on the ASCII range, which covers every path in the claims. -/
def lowerAsciiChar (c : Char) : Char :=
  if 65 ≤ c.toNat ∧ c.toNat ≤ 90 then Char.ofNat (c.toNat + 32) else c

/-- ASCII lowercasing of a string. -/
def lowerAscii (s : String) : String := String.mk (s.data.map lowerAsciiChar)

/-- Rust `Path::extension` on a file name: the part after the final dot,
none when there is no dot or when the only dot is the leading one of a
hidden file. -/
def rustExtension (name : String) : Option String :=
  let cs := name.data
  let ext := (cs.reverse.takeWhile (fun c => c ≠ '.')).reverse
  if ext.length = cs.length then none
  else if ext.length + 1 = cs.length ∧ cs.head? = some '.' then none
  else some (String.mk ext)

/-- src/utils.rs `get_language_tag`: lowercased file name checked first
for special names, then the lowercased extension. -/
def get_language_tag (p : List String) : String :=
  let ext := lowerAscii ((rustExtension ((p.getLast?).getD "")).getD "")
  let filename := lowerAscii ((p.getLast?).getD "")
  match filename with
  | "dockerfile" => "dockerfile"
  | "makefile" | "gnumakefile" => "makefile"
  | "cmakelists.txt" => "cmake"
  | "rakefile" | "gemfile" => "ruby"
  | "vagrantfile" => "ruby"
  | "justfile" => "just"
  | ".gitignore" | ".gitattributes" | ".gitmodules" => "gitignore"
  | ".env" | ".env.local" | ".env.example" => "dotenv"
  | ".editorconfig" => "editorconfig"
  | "procfile" => "procfile"
  | _ =>
    match ext with
    | "rs" => "rust"
    | "js" => "javascript"
    | "mjs" => "javascript"
    | "cjs" => "javascript"
    | "jsx" => "jsx"
    | "ts" => "typescript"
    | "mts" => "typescript"
    | "cts" => "typescript"
    | "tsx" => "tsx"
    | "html" | "htm" => "html"
    | "css" => "css"
    | "scss" => "scss"
    | "sass" => "sass"
    | "less" => "less"
    | "vue" => "vue"
    | "svelte" => "svelte"
    | "astro" => "astro"
    | "py" => "python"
    | "pyi" => "python"
    | "pyw" => "python"
    | "pyx" => "cython"
    | "pxd" => "cython"
    | "rb" => "ruby"
    | "erb" => "erb"
    | "rake" => "ruby"
    | "gemspec" => "ruby"
    | "go" => "go"
    | "mod" => "gomod"
    | "sum" => "gosum"
    | "java" => "java"
    | "kt" | "kts" => "kotlin"
    | "scala" | "sc" => "scala"
    | "groovy" | "gvy" | "gy" | "gsh" => "groovy"
    | "gradle" => "gradle"
    | "clj" | "cljs" | "cljc" | "edn" => "clojure"
    | "c" => "c"
    | "h" => "c"
    | "cpp" | "cc" | "cxx" | "c++" => "cpp"
    | "hpp" | "hh" | "hxx" | "h++" => "cpp"
    | "cs" => "csharp"
    | "fs" | "fsi" | "fsx" => "fsharp"
    | "vb" => "vb"
    | "csproj" | "fsproj" | "vbproj" | "sln" => "xml"
    | "zig" => "zig"
    | "nim" => "nim"
    | "v" => "v"
    | "odin" => "odin"
    | "d" => "d"
    | "hs" | "lhs" => "haskell"
    | "ml" | "mli" => "ocaml"
    | "ex" | "exs" => "elixir"
    | "erl" | "hrl" => "erlang"
    | "elm" => "elm"
    | "purs" => "purescript"
    | "rkt" => "racket"
    | "scm" | "ss" => "scheme"
    | "lisp" | "lsp" | "cl" => "lisp"
    | "sh" => "bash"
    | "bash" => "bash"
    | "zsh" => "zsh"
    | "fish" => "fish"
    | "ps1" | "psm1" | "psd1" => "powershell"
    | "bat" | "cmd" => "batch"
    | "json" => "json"
    | "jsonc" => "jsonc"
    | "json5" => "json5"
    | "yaml" | "yml" => "yaml"
    | "toml" => "toml"
    | "xml" => "xml"
    | "xsd" | "xsl" | "xslt" => "xml"
    | "ini" | "cfg" => "ini"
    | "conf" => "conf"
    | "properties" => "properties"
    | "md" | "markdown" => "markdown"
    | "mdx" => "mdx"
    | "rst" => "rst"
    | "tex" | "latex" => "latex"
    | "adoc" | "asciidoc" => "asciidoc"
    | "org" => "org"
    | "txt" => "text"
    | "sql" => "sql"
    | "psql" => "sql"
    | "mysql" => "sql"
    | "pgsql" => "sql"
    | "plsql" => "plsql"
    | "prisma" => "prisma"
    | "tf" | "tfvars" => "hcl"
    | "hcl" => "hcl"
    | "nix" => "nix"
    | "dhall" => "dhall"
    | "php" | "phtml" => "php"
    | "blade.php" => "blade"
    | "swift" => "swift"
    | "m" | "mm" => "objectivec"
    | "pl" | "pm" | "pod" => "perl"
    | "perl" => "perl"
    | "lua" => "lua"
    | "luau" => "luau"
    | "r" | "rmd" => "r"
    | "jl" => "julia"
    | "mat" => "matlab"
    | "asm" | "s" => "asm"
    | "nasm" => "nasm"
    | "proto" => "protobuf"
    | "graphql" | "gql" => "graphql"
    | "thrift" => "thrift"
    | "avsc" => "json"
    | "ejs" => "ejs"
    | "hbs" | "handlebars" => "handlebars"
    | "mustache" => "mustache"
    | "jinja" | "jinja2" | "j2" => "jinja"
    | "liquid" => "liquid"
    | "pug" | "jade" => "pug"
    | "slim" => "slim"
    | "haml" => "haml"
    | "diff" | "patch" => "diff"
    | "log" => "log"
    | "csv" => "csv"
    | "tsv" => "tsv"
    | "lock" => "lock"
    | "svg" => "svg"
    | "wasm" | "wat" => "wasm"
    | "glsl" | "vert" | "frag" => "glsl"
    | "hlsl" => "hlsl"
    | "cu" | "cuh" => "cuda"
    | "sol" => "solidity"
    | "cairo" => "cairo"
    | "move" => "move"
    | _ => ""

/-- Byte-list prefix test used by the classifier's BOM checks. -/
def startsWithBytes (b pat : List Nat) : Bool := b.take pat.length == pat

/-- The BINARY verdict of content_inspector::inspect, the external crate
the writer calls: a byte-order-mark prefix forces a text verdict,
otherwise a null byte among the first 1024 scanned bytes means binary. -/
def inspectIsBinary (buffer : List Nat) : Bool :=
  if startsWithBytes buffer [0xFF, 0xFE, 0x00, 0x00] then false
  else if startsWithBytes buffer [0x00, 0x00, 0xFE, 0xFF] then false
  else if startsWithBytes buffer [0xEF, 0xBB, 0xBF] then false
  else if startsWithBytes buffer [0xFF, 0xFE] then false
  else if startsWithBytes buffer [0xFE, 0xFF] then false
  else (buffer.take (min buffer.length 1024)).contains 0

/-- A UTF-8 continuation byte. -/
def utf8Cont (b : Nat) : Bool := decide (0x80 ≤ b) && decide (b ≤ 0xBF)

/-- Validity of a byte list as UTF-8, as decided by Rust
`str::from_utf8`, with the standard exclusions of overlong encodings,
surrogates and values above U+10FFFF. -/
def validUtf8 : List Nat → Bool
  | [] => true
  | b :: rest =>
    if b ≤ 0x7F then validUtf8 rest
    else if 0xC2 ≤ b ∧ b ≤ 0xDF then
      match rest with
      | b1 :: r => utf8Cont b1 && validUtf8 r
      | [] => false
    else if b = 0xE0 then
      match rest with
      | b1 :: b2 :: r =>
        (decide (0xA0 ≤ b1) && decide (b1 ≤ 0xBF)) && utf8Cont b2 && validUtf8 r
      | _ => false
    else if (0xE1 ≤ b ∧ b ≤ 0xEC) ∨ b = 0xEE ∨ b = 0xEF then
      match rest with
      | b1 :: b2 :: r => utf8Cont b1 && utf8Cont b2 && validUtf8 r
      | _ => false
    else if b = 0xED then
      match rest with
      | b1 :: b2 :: r =>
        (decide (0x80 ≤ b1) && decide (b1 ≤ 0x9F)) && utf8Cont b2 && validUtf8 r
      | _ => false
    else if b = 0xF0 then
      match rest with
      | b1 :: b2 :: b3 :: r =>
        (decide (0x90 ≤ b1) && decide (b1 ≤ 0xBF)) && utf8Cont b2 && utf8Cont b3
          && validUtf8 r
      | _ => false
    else if 0xF1 ≤ b ∧ b ≤ 0xF3 then
      match rest with
      | b1 :: b2 :: b3 :: r =>
        utf8Cont b1 && utf8Cont b2 && utf8Cont b3 && validUtf8 r
      | _ => false
    else if b = 0xF4 then
      match rest with
      | b1 :: b2 :: b3 :: r =>
        (decide (0x80 ≤ b1) && decide (b1 ≤ 0x8F)) && utf8Cont b2 && utf8Cont b3
          && validUtf8 r
      | _ => false
    else false

/-- One file handed to the writer: its path and its memory-mapped bytes. -/
structure DirEntry where
  path : List String
  bytes : List Nat

/-- The binary/text verdict write_entry derives: content_inspector is run
on a sample of the first `min(8192, mmap.len())` bytes. -/
def classifyBinary (bytes : List Nat) : Bool :=
  inspectIsBinary (bytes.take (min 8192 bytes.length))

/-- src/writer.rs `MarkdownWriter::write_entry`: emits the heading
`## rel_path` with a blank line; then either the binary placeholder, or
an opening fence of exactly three backticks plus the dialect tag, the
payload bytes verbatim and a closing fence.  Returns the emitted bytes
together with an error for the fallback path taken on invalid UTF-8
(the bytes written before the failure remain emitted). -/
def write_entry (project_root : List String) (entry : DirEntry) :
    List Nat × Option String :=
  let rel_path := stripPre project_root entry.path
  let heading := asciiOf ("## " ++ pathDisplay rel_path ++ "\n\n")
  if classifyBinary entry.bytes then
    (heading ++ asciiOf "(binary file omitted)\n\n", none)
  else
    let lang := get_language_tag entry.path
    let openFence := asciiOf ("```" ++ lang ++ "\n")
    if validUtf8 entry.bytes then
      (heading ++ openFence ++ entry.bytes ++ asciiOf "\n```\n\n", none)
    else
      (heading ++ openFence,
        some ("Fallback read failed for " ++ pathDisplay entry.path))

/-- src/lib.rs `run_src2md`'s per-entry loop: write each entry in order;
on a per-entry error return it immediately when fail_fast is set,
otherwise log it and continue with the remaining entries.  The result
carries the document bytes and the logged errors. -/
def run_src2md (fail_fast : Bool) (project_root : List String) :
    List DirEntry → Except String (List Nat × List String)
  | [] => .ok ([], [])
  | entry :: rest =>
    let written := write_entry project_root entry
    match written.2 with
    | none =>
      match run_src2md fail_fast project_root rest with
      | .ok (doc, errs) => .ok (written.1 ++ doc, errs)
      | .error e => .error e
    | some err =>
      if fail_fast then .error err
      else
        match run_src2md fail_fast project_root rest with
        | .ok (doc, errs) => .ok (written.1 ++ doc, err :: errs)
        | .error e => .error e

/-- Modelled from the spec: the magic marker is a fixed literal line.
Its definition (writer::OUTPUT_MAGIC_HEADER) is referenced by lib.rs,
filewalker.rs and the smoke tests but absent from the sources; the
tests show it begins with an HTML comment opener.  Only its being a
fixed non-empty byte string matters to the theorems below. -/
def OUTPUT_MAGIC_HEADER : String := "<!-- src2md output -->\n"

/-- Modelled from the spec: the marker's bytes (writer::OUTPUT_MAGIC_BYTES). -/
def OUTPUT_MAGIC_BYTES : List Nat := asciiOf OUTPUT_MAGIC_HEADER

/-- src/filewalker.rs `is_src2md_output`: `none` stands for any
open/metadata/mmap failure; otherwise the file's bytes are given.  A file
shorter than the marker is rejected before mapping; otherwise exactly the
marker's length is mapped and compared. -/
def is_src2md_output : Option (List Nat) → Bool
  | none => false
  | some bytes =>
    if bytes.length < OUTPUT_MAGIC_BYTES.length then false
    else bytes.take OUTPUT_MAGIC_BYTES.length == OUTPUT_MAGIC_BYTES

/-- Split a byte list at every newline byte; never empty, keeps empty
segments. -/
def splitNlBytes : List Nat → List (List Nat)
  | [] => [[]]
  | b :: rest =>
    if b = 10 then [] :: splitNlBytes rest
    else
      match splitNlBytes rest with
      | [] => [[b]]
      | l :: ls => (b :: l) :: ls

/-- Lines of a document: newline-separated, a trailing newline produces
no final empty line. -/
def docLines (bytes : List Nat) : List (List Nat) :=
  let parts := splitNlBytes bytes
  if parts.getLast? = some [] then parts.dropLast else parts

/-- Leading backtick-byte run of a document line. -/
def leadTickBytes (l : List Nat) : Nat :=
  (l.takeWhile (fun b => b = 96)).length

/-- The binary placeholder line of the container format. -/
def binaryMarkLine : List Nat := asciiOf "(binary file omitted)"

/-- Payload lines up to, but not including, the first line that is
exactly the fence; `none` when the fence never closes. -/
def splitAtFenceLine (fence : List Nat) :
    List (List Nat) → Option (List (List Nat) × List (List Nat))
  | [] => none
  | l :: rest =>
    if l = fence then some ([], rest)
    else
      match splitAtFenceLine fence rest with
      | some (payload, after) => some (l :: payload, after)
      | none => none

/-- Rejoin payload lines with newline bytes. -/
def joinNl (ls : List (List Nat)) : List Nat := (List.intersperse [10] ls).flatten

/-- Modelled from the spec: the decoder loop of section 4.5.  The
extractor module (extract_from_markdown) is declared in lib.rs but its
source is absent, so this follows the spec's words: a section starts at
a heading line (double hash and space, then the relative path); blank
separator lines are skipped; a following binary-placeholder line makes
the record Binary (no payload); otherwise the following line is the
opening fence, whose actual backtick length (at least three, per the
format of section 6) is read from the document, and the payload is every
line up to but not including a line that is exactly the fence; a fence
that never closes or a missing section body is a MalformedSection error.
Lines outside sections are skipped (the lenient policy of section 4.5:
no magic-marker check, an input without sections decodes to the empty
list).  A record is the path's bytes with `some payload` for Text and
`none` for Binary. -/
def decodeGo : Nat → List (List Nat) → Except String (List (List Nat × Option (List Nat)))
  | 0, _ => .ok []
  | _ + 1, [] => .ok []
  | fuel + 1, l :: rest =>
    if l.take 3 = asciiOf "## " then
      let path := l.drop 3
      let body := rest.dropWhile (fun x => x = ([] : List Nat))
      match body with
      | [] => .error "MalformedSection"
      | b :: body2 =>
        if b = binaryMarkLine then
          match decodeGo fuel body2 with
          | .ok records => .ok ((path, none) :: records)
          | .error e => .error e
        else if leadTickBytes b < 3 then .error "MalformedSection"
        else
          let fence := List.replicate (leadTickBytes b) 96
          match splitAtFenceLine fence body2 with
          | none => .error "MalformedSection"
          | some (payloadLines, after) =>
            match decodeGo fuel after with
            | .ok records => .ok ((path, some (joinNl payloadLines)) :: records)
            | .error e => .error e
    else
      decodeGo fuel rest

/-- Modelled from the spec: decode a document into its records. -/
def decodeDoc (bytes : List Nat) : Except String (List (List Nat × Option (List Nat))) :=
  decodeGo ((docLines bytes).length + 1) (docLines bytes)

theorem take_min_eq (n : Nat) (l : List Nat) :
    l.take (min n l.length) = l.take n := by
  rw [Nat.min_def]
  split
  · rfl
  · next h =>
    rw [List.take_length, List.take_of_length_le (by omega)]

theorem write_entry_heading (root : List String) (e : DirEntry) :
    ∃ rest, (write_entry root e).1
      = asciiOf ("## " ++ pathDisplay (stripPre root e.path) ++ "\n\n") ++ rest := by
  simp only [write_entry]
  split
  · exact ⟨_, rfl⟩
  · split
    · exact ⟨asciiOf ("```" ++ get_language_tag e.path ++ "\n")
        ++ (e.bytes ++ asciiOf "\n```\n\n"), by simp [List.append_assoc]⟩
    · exact ⟨_, rfl⟩

theorem run_ok_of_errors_none (ff : Bool) (root : List String)
    (entries : List DirEntry)
    (h : ∀ e ∈ entries, (write_entry root e).2 = none) :
    run_src2md ff root entries
      = .ok ((entries.map (fun e => (write_entry root e).1)).flatten, []) := by
  induction entries with
  | nil => rfl
  | cons e rest ih =>
    have he := h e (List.mem_cons_self e rest)
    have hrest : ∀ x ∈ rest, (write_entry root x).2 = none :=
      fun x hx => h x (List.mem_cons_of_mem _ hx)
    simp [run_src2md, he, ih hrest]

theorem run_no_failfast (root : List String) (entries : List DirEntry) :
    run_src2md false root entries
      = .ok ((entries.map (fun e => (write_entry root e).1)).flatten,
             entries.filterMap (fun e => (write_entry root e).2)) := by
  induction entries with
  | nil => rfl
  | cons e rest ih =>
    cases hw : (write_entry root e).2 with
    | none => simp [run_src2md, hw, ih]
    | some err => simp [run_src2md, hw, ih]

theorem run_failfast_error (root : List String) (pre post : List DirEntry)
    (e : DirEntry) (err : String)
    (hpre : ∀ x ∈ pre, (write_entry root x).2 = none)
    (he : (write_entry root e).2 = some err) :
    run_src2md true root (pre ++ e :: post) = .error err := by
  induction pre with
  | nil => simp [run_src2md, he]
  | cons p ps ih =>
    have hp := hpre p (List.mem_cons_self p ps)
    have hps : ∀ x ∈ ps, (write_entry root x).2 = none :=
      fun x hx => hpre x (List.mem_cons_of_mem _ hx)
    simp [run_src2md, hp, ih hps]

/-- C4 (amended): `calculate_fence` returns a backtick string of length
`max(3, longest_observed_run + 1)`, where the longest observed run is the
maximum over all lines of the backtick run at the start of the line's
left-trimmed content; text with zero line-leading backtick runs yields
the 3-length default; text consisting entirely of backticks with total
run n yields length `max(3, n + 1)`; mid-line backtick runs are never
counted (witnessed by a payload whose only backtick run is mid-line
keeping the 3-length default). -/
theorem C4_fence_length_amended (s : List Char) :
    (calculate_fence s).length = Nat.max 3 (specLongestRun s + 1)
    ∧ (specLongestRun s = 0 → (calculate_fence s).length = 3)
    ∧ (∀ c ∈ calculate_fence s, c = backtick)
    ∧ (s ≠ [] → (∀ c ∈ s, c = backtick) →
        (calculate_fence s).length = Nat.max 3 (s.length + 1))
    ∧ (calculate_fence ['x', backtick, backtick, backtick]).length = 3 := by
  refine ⟨calculate_fence_length s, ?_, ?_, ?_, by decide⟩
  · intro h0
    rw [calculate_fence_length s, h0]
    decide
  · intro c hc
    exact List.eq_of_mem_replicate hc
  · intro hne hall
    have hnl : '\n' ∉ s := by
      intro hm
      exact absurd (hall _ hm) (by decide)
    have hlines : rustLines s = [s] := rustLines_of_no_newline hne hnl
    have htrim : trimStart s = s := by
      refine dropWhile_head_false ?_
      intro c hc
      have hcm : c ∈ s := by
        cases s with
        | nil => simp at hc
        | cons a as =>
          simp only [List.head?] at hc
          exact (Option.some_inj.mp hc) ▸ List.mem_cons_self a as
      rw [hall c hcm]
      decide
    have hticks : leadTicks s = s.length := by
      unfold leadTicks
      rw [takeWhile_all (fun c hc => by rw [hall c hc]; decide)]
    have hrun : specLongestRun s = s.length := by
      unfold specLongestRun
      rw [hlines]
      simp only [List.map_cons, List.map_nil, List.foldr_cons, List.foldr_nil]
      unfold specLineRun
      rw [htrim, hticks]
      simp [Nat.max_def]
    rw [calculate_fence_length s, hrun]

/-- C4 counterexample: the claim's clause that text consisting entirely of
backticks yields a fence of length total run + 1 fails on a single
backtick, for which `calculate_fence` returns the 3-length default rather
than length 2. -/
theorem C4_counterexample :
    (calculate_fence [backtick]).length ≠ [backtick].length + 1 := by
  decide

/-- C4 witness: the amended statement instantiated at a text whose single
line-leading run has length 3, and whose hypotheses hold there. -/
theorem C4_fence_length_amended_witness :
    (("```a" : String).data ≠ [] → (∀ c ∈ ("```a" : String).data, c = backtick) →
        (calculate_fence ("```a" : String).data).length
          = Nat.max 3 (("```a" : String).data.length + 1))
    ∧ (calculate_fence ("```a" : String).data).length
        = Nat.max 3 (specLongestRun ("```a" : String).data + 1) :=
  ⟨(C4_fence_length_amended ("```a" : String).data).2.2.2.1,
    (C4_fence_length_amended ("```a" : String).data).1⟩

/-- C1: the round-trip law fails on the code.  For the single Text record
with relative path a.md and payload consisting of the single line of
three backticks, the encoder emits a fixed three-backtick fence (and no
magic marker), so the decoder reads the payload's own backtick line as
the closing fence and recovers an empty payload instead of the original
bytes. -/
theorem C1_roundtrip_failure :
    run_src2md true [] [⟨["a.md"], asciiOf "```"⟩]
      = .ok (asciiOf "## a.md\n\n```markdown\n```\n```\n\n", [])
    ∧ decodeDoc (asciiOf "## a.md\n\n```markdown\n```\n```\n\n")
      = .ok [(asciiOf "a.md", some [])]
    ∧ asciiOf "```" ≠ ([] : List Nat) :=
  ⟨rfl, rfl, by decide⟩

/-- C2: the encoder writes no magic marker at all.  A complete encode
pass over one text record produces a document that starts with the
record's heading bytes, not with the marker line, contradicting the
claim that every encoded document begins with the marker. -/
theorem C2_no_magic_marker :
    run_src2md true [] [⟨["a.rs"], asciiOf "x"⟩]
      = .ok (asciiOf "## a.rs\n\n```rust\nx\n```\n\n", [])
    ∧ (asciiOf "## a.rs\n\n```rust\nx\n```\n\n").take OUTPUT_MAGIC_BYTES.length
        ≠ OUTPUT_MAGIC_BYTES :=
  ⟨rfl, by decide⟩

/-- C3: the encoder does not compute the fence via the section-4.3 rule.
For a Markdown payload containing a line whose left-trimmed content
starts with a run of three backticks, `calculate_fence` would choose a
four-backtick fence, but `write_entry` emits an opening fence line of
exactly three backticks, so the emitted fence length is not at least 4. -/
theorem C3_fixed_three_fence :
    specLongestRun ("# E\n\n```rust\nfn main()\n```\n" : String).data = 3
    ∧ (calculate_fence ("# E\n\n```rust\nfn main()\n```\n" : String).data).length = 4
    ∧ write_entry [] ⟨["README.md"], asciiOf "# E\n\n```rust\nfn main()\n```\n"⟩
        = (asciiOf "## README.md\n\n" ++ asciiOf "```markdown\n"
            ++ asciiOf "# E\n\n```rust\nfn main()\n```\n" ++ asciiOf "\n```\n\n", none)
    ∧ leadTicks ("```markdown" : String).data = 3
    ∧ ¬ 4 ≤ leadTicks ("```markdown" : String).data := by
  refine ⟨by decide, by decide, ?_, by decide, by decide⟩
  rfl

/-- C5: a record classified Binary produces exactly the heading followed
by the placeholder line and a blank line — no fence and no payload
bytes, whatever the record's content was. -/
theorem C5_binary_placeholder (root : List String) (e : DirEntry)
    (h : classifyBinary e.bytes = true) :
    write_entry root e
      = (asciiOf ("## " ++ pathDisplay (stripPre root e.path) ++ "\n\n")
          ++ asciiOf "(binary file omitted)\n\n", none) := by
  simp [write_entry, h]

/-- C5 witness: the binary bytes 00 FF AA 55 of the spec's Scenario C. -/
theorem C5_binary_placeholder_witness :
    classifyBinary ([0x00, 0xFF, 0xAA, 0x55] : List Nat) = true
    ∧ write_entry [] ⟨["binary.bin"], [0x00, 0xFF, 0xAA, 0x55]⟩
        = (asciiOf ("## " ++ pathDisplay (stripPre [] ["binary.bin"]) ++ "\n\n")
            ++ asciiOf "(binary file omitted)\n\n", none) :=
  ⟨by decide,
    C5_binary_placeholder [] ⟨["binary.bin"], [0x00, 0xFF, 0xAA, 0x55]⟩ (by decide)⟩

/-- C6: `is_src2md_output` returns false on any open/metadata/mmap
failure and on any file shorter than the marker; it returns true exactly
when the file's leading bytes equal the marker; and its verdict depends
only on the first marker-length bytes, never on the rest of the file. -/
theorem C6_container_detection :
    is_src2md_output none = false
    ∧ (∀ bytes : List Nat, bytes.length < OUTPUT_MAGIC_BYTES.length →
        is_src2md_output (some bytes) = false)
    ∧ (∀ bytes : List Nat, is_src2md_output (some bytes) = true ↔
        OUTPUT_MAGIC_BYTES.length ≤ bytes.length ∧
          bytes.take OUTPUT_MAGIC_BYTES.length = OUTPUT_MAGIC_BYTES)
    ∧ (∀ p r₁ r₂ : List Nat, p.length = OUTPUT_MAGIC_BYTES.length →
        is_src2md_output (some (p ++ r₁)) = is_src2md_output (some (p ++ r₂))) := by
  refine ⟨rfl, ?_, ?_, ?_⟩
  · intro bytes h
    simp only [is_src2md_output]
    rw [if_pos h]
  · intro bytes
    simp only [is_src2md_output]
    by_cases h : bytes.length < OUTPUT_MAGIC_BYTES.length
    · rw [if_pos h]
      constructor
      · intro hfalse
        exact absurd hfalse (by decide)
      · rintro ⟨hlen, -⟩
        omega
    · rw [if_neg h]
      rw [beq_iff_eq]
      constructor
      · intro ht
        exact ⟨by omega, ht⟩
      · rintro ⟨-, ht⟩
        exact ht
  · intro p r₁ r₂ hp
    simp only [is_src2md_output]
    rw [if_neg (by rw [List.length_append]; omega),
        if_neg (by rw [List.length_append]; omega)]
    rw [← hp, List.take_left, List.take_left]

/-- C6 witness: a byte list that extends the marker is recognised. -/
theorem C6_container_detection_witness :
    OUTPUT_MAGIC_BYTES.length ≤ (OUTPUT_MAGIC_BYTES ++ asciiOf "x").length
    ∧ is_src2md_output (some (OUTPUT_MAGIC_BYTES ++ asciiOf "x")) = true :=
  ⟨by decide, (C6_container_detection.2.2.1 (OUTPUT_MAGIC_BYTES ++ asciiOf "x")).mpr
    ⟨by decide, by decide⟩⟩

/-- C7: when every entry writes without error, the encode pass emits the
per-entry sections concatenated in exactly the input order — the i-th
section comes from the i-th record — and every section starts with the
heading line carrying that record's relative path. -/
theorem C7_order_preserved (ff : Bool) (root : List String)
    (entries : List DirEntry)
    (h : ∀ e ∈ entries, (write_entry root e).2 = none) :
    run_src2md ff root entries
      = .ok ((entries.map (fun e => (write_entry root e).1)).flatten, [])
    ∧ ∀ e ∈ entries, ∃ rest, (write_entry root e).1
        = asciiOf ("## " ++ pathDisplay (stripPre root e.path) ++ "\n\n") ++ rest :=
  ⟨run_ok_of_errors_none ff root entries h,
    fun e _ => write_entry_heading root e⟩

/-- C7 witness: two text entries in order. -/
theorem C7_order_preserved_witness :
    (∀ e ∈ [(⟨["a.rs"], asciiOf "x"⟩ : DirEntry), ⟨["b.md"], asciiOf "y"⟩],
        (write_entry [] e).2 = none)
    ∧ (run_src2md true []
          [(⟨["a.rs"], asciiOf "x"⟩ : DirEntry), ⟨["b.md"], asciiOf "y"⟩]
        = .ok (([(⟨["a.rs"], asciiOf "x"⟩ : DirEntry), ⟨["b.md"], asciiOf "y"⟩].map
            (fun e => (write_entry [] e).1)).flatten, [])
      ∧ ∀ e ∈ [(⟨["a.rs"], asciiOf "x"⟩ : DirEntry), ⟨["b.md"], asciiOf "y"⟩],
          ∃ rest, (write_entry [] e).1
            = asciiOf ("## " ++ pathDisplay (stripPre [] e.path) ++ "\n\n") ++ rest) :=
  ⟨by decide, C7_order_preserved true []
    [(⟨["a.rs"], asciiOf "x"⟩ : DirEntry), ⟨["b.md"], asciiOf "y"⟩] (by decide)⟩

/-- C8: the binary/text classification inspects only the first
`min(8192, length)` bytes — buffers agreeing on their first 8192 bytes
classify identically — and an empty buffer classifies as Text without
failing, producing a text section with empty payload. -/
theorem C8_classifier_sample_and_empty :
    (∀ b₁ b₂ : List Nat, b₁.take 8192 = b₂.take 8192 →
        classifyBinary b₁ = classifyBinary b₂)
    ∧ classifyBinary [] = false
    ∧ (∀ (root path : List String), write_entry root ⟨path, []⟩
        = (asciiOf ("## " ++ pathDisplay (stripPre root path) ++ "\n\n")
            ++ asciiOf ("```" ++ get_language_tag path ++ "\n")
            ++ ([] : List Nat) ++ asciiOf "\n```\n\n", none)) := by
  refine ⟨?_, by decide, ?_⟩
  · intro b₁ b₂ h
    unfold classifyBinary
    rw [take_min_eq, take_min_eq, h]
  · intro root path
    rfl

/-- C8 witness: the sample lemma at a one-byte buffer and the empty-file
section at a concrete path. -/
theorem C8_classifier_sample_and_empty_witness :
    ([0x61] : List Nat).take 8192 = ([0x61] : List Nat).take 8192
    ∧ classifyBinary [0x61] = classifyBinary [0x61]
    ∧ write_entry [] ⟨["e.rs"], []⟩
        = (asciiOf ("## " ++ pathDisplay (stripPre [] ["e.rs"]) ++ "\n\n")
            ++ asciiOf ("```" ++ get_language_tag ["e.rs"] ++ "\n")
            ++ ([] : List Nat) ++ asciiOf "\n```\n\n", none) :=
  ⟨rfl, C8_classifier_sample_and_empty.1 [0x61] [0x61] rfl,
    C8_classifier_sample_and_empty.2.2 [] ["e.rs"]⟩

/-- C9: per-record error handling follows the caller-supplied fail_fast
policy: with fail_fast set, the first entry whose write fails aborts the
pass and that entry's error is returned; without it, every entry is
processed and each failing entry's error is recorded, in order. -/
theorem C9_error_policy :
    (∀ (root : List String) (pre post : List DirEntry) (e : DirEntry)
        (err : String),
        (∀ x ∈ pre, (write_entry root x).2 = none) →
        (write_entry root e).2 = some err →
        run_src2md true root (pre ++ e :: post) = .error err)
    ∧ (∀ (root : List String) (entries : List DirEntry),
        run_src2md false root entries
          = .ok ((entries.map (fun e => (write_entry root e).1)).flatten,
                 entries.filterMap (fun e => (write_entry root e).2))) :=
  ⟨fun root pre post e err hpre he => run_failfast_error root pre post e err hpre he,
    fun root entries => run_no_failfast root entries⟩

/-- C9 witness: a clean entry followed by an entry whose bytes are not
valid UTF-8 (and not binary), which makes its write fail. -/
theorem C9_error_policy_witness :
    (∀ x ∈ [(⟨["a.rs"], asciiOf "x"⟩ : DirEntry)], (write_entry [] x).2 = none)
    ∧ (write_entry [] ⟨["b.bin"], [0xC3]⟩).2
        = some "Fallback read failed for b.bin"
    ∧ run_src2md true []
        ([(⟨["a.rs"], asciiOf "x"⟩ : DirEntry)] ++ (⟨["b.bin"], [0xC3]⟩ : DirEntry) :: [])
        = .error "Fallback read failed for b.bin" :=
  ⟨by decide, by decide,
    C9_error_policy.1 [] [⟨["a.rs"], asciiOf "x"⟩] [] ⟨["b.bin"], [0xC3]⟩
      "Fallback read failed for b.bin" (by decide) (by decide)⟩

/-- C10: when the entry's path is not prefixed by the project root, the
strip_prefix error is discarded by unwrap_or, the section is still
written, and its heading carries the original path unchanged. -/
theorem C10_heading_on_foreign_path (root : List String) (e : DirEntry)
    (h : root.isPrefixOf e.path = false) :
    stripPre root e.path = e.path
    ∧ ∃ rest, (write_entry root e).1
        = asciiOf ("## " ++ pathDisplay e.path ++ "\n\n") ++ rest := by
  have hs : stripPre root e.path = e.path := by
    unfold stripPre
    rw [if_neg (by simp [h])]
  refine ⟨hs, ?_⟩
  rcases write_entry_heading root e with ⟨r, hr⟩
  exact ⟨r, by rw [hr, hs]⟩

/-- C10 witness: a root that is not a prefix of the entry's path. -/
theorem C10_heading_on_foreign_path_witness :
    (["r"] : List String).isPrefixOf ["a", "b.rs"] = false
    ∧ (stripPre ["r"] ["a", "b.rs"] = ["a", "b.rs"]
      ∧ ∃ rest, (write_entry ["r"] ⟨["a", "b.rs"], asciiOf "z"⟩).1
          = asciiOf ("## " ++ pathDisplay ["a", "b.rs"] ++ "\n\n") ++ rest) :=
  ⟨by decide, C10_heading_on_foreign_path ["r"] ⟨["a", "b.rs"], asciiOf "z"⟩ (by decide)⟩

end Src2md
